import Mathlib

/-!
Verification of the `stable-fragmented-buffer` blob arena.

This file is a shallow embedding of the Rust sources into Lean:

* `src/types/types.rs`   → `BlobHandle`, `Config`, `BlobError`
* `src/page/page.rs`     → `EntryMetadata`, `Page` and its operations
* `src/backend/*.rs`     → `Backend` (the segmented backend: a keyed map of
                           pages, together with the list of live identifiers,
                           which determinises `HashMap` iteration order)
* `src/page/store.rs`    → `Store` (`PinnedBlobStore`) and its operations

Stateful Rust code (interior mutability through atomics and locks) is
modelled by explicit state passing under a sequential interleaving; every
call to `SystemTime::now()` inside one operation is modelled by a single
`now : Nat` parameter of that operation.  Machine integers are modelled by
`Nat`: in the Rust code the `u64`/`usize` subtractions that occur
(`now - timestamp`, capacity - used, …) never underflow on the executions
considered, and `Nat` subtraction truncates at zero exactly like the
saturating subtraction used in `available_space`.  The uninitialised page
buffer (`MaybeUninit`) is modelled as a zero-filled buffer; no theorem in
this file depends on the content of bytes that were never written.
-/

namespace SFB

/-- Byte payloads, modelled as lists of naturals. -/
abbrev Bytes := List Nat

/-- Error taxonomy of `src/types/types.rs` (`BlobError`). -/
inductive BlobError where
  | HandleExpired
  | InvalidHandle
  | OutOfMemory
  | DataTooLarge (size : Nat) (max : Nat)
  | PageFull
deriving DecidableEq, Repr

/-- Per-entry metadata inside a page (`EntryMetadata` in `src/page/page.rs`).
The `acknowledged` atomic flag becomes a plain `Bool`. -/
structure EntryMetadata where
  offset : Nat
  size : Nat
  timestamp : Nat
  acknowledged : Bool
deriving DecidableEq, Repr

/-- Construction of a fresh entry (`EntryMetadata::new`), with the wall clock
passed explicitly. -/
def EntryMetadata.new (offset size now : Nat) : EntryMetadata :=
  ⟨offset, size, now, false⟩

/-- Model of `EntryMetadata::is_expired`: `now - self.timestamp > ttl_ms`. -/
def EntryMetadata.is_expired (e : EntryMetadata) (ttl_ms now : Nat) : Bool :=
  now - e.timestamp > ttl_ms

/-- Model of `EntryMetadata::acknowledge`. -/
def EntryMetadata.ack (e : EntryMetadata) : EntryMetadata :=
  { e with acknowledged := true }

/-- Model of `EntryMetadata::should_cleanup`: acknowledged or expired. -/
def EntryMetadata.should_cleanup (e : EntryMetadata) (ttl_ms now : Nat) : Bool :=
  e.acknowledged || e.is_expired ttl_ms now

/-- Overwriting `src.length` bytes of `buf` at `offset`
(`std::ptr::copy_nonoverlapping` in `try_append` / `try_append_partial`).
Callers always have `offset + src.length ≤ buf.length`. -/
def writeBytes (buf : Bytes) (offset : Nat) (src : Bytes) : Bytes :=
  buf.take offset ++ src ++ buf.drop (offset + src.length)

/-- Model of `Page` from `src/page/page.rs`.  The byte buffer `data` has the
page's capacity as its length; `used` is the bump-allocator cursor;
`empty_since` is `0` when the page is not known-retired. -/
structure Page where
  id : Nat
  data : Bytes
  used : Nat
  generation : Nat
  entries : List EntryMetadata
  empty_since : Nat
deriving DecidableEq, Repr

/-- Model of `Page::new`: a fresh page with an (uninitialised, here
zero-filled) buffer of `size` bytes, `used = 0`, no entries. -/
def Page.new (id size generation : Nat) : Page :=
  ⟨id, List.replicate size 0, 0, generation, [], 0⟩

/-- Model of `Page::try_append`.  On success returns the `(offset, size)` pair
and the updated page; `DataTooLarge` when the payload exceeds capacity;
`PageFull` (after the fetch-add/fetch-sub rollback, i.e. with the page
unchanged) when the reservation would overflow the capacity. -/
def Page.try_append (p : Page) (data : Bytes) (now : Nat) :
    Except BlobError ((Nat × Nat) × Page) :=
  let data_len := data.length
  if data_len > p.data.length then
    .error (.DataTooLarge data_len p.data.length)
  else
    let offset := p.used
    if offset + data_len > p.data.length then
      .error .PageFull
    else
      .ok ((offset, data_len),
        { p with
          data := writeBytes p.data offset data
          used := offset + data_len
          entries := p.entries ++ [EntryMetadata.new offset data_len now]
          empty_since := 0 })

/-- Model of `Page::get`: bounds-checked against capacity (not `used`),
returning the requested slice of the buffer. -/
def Page.get (p : Page) (offset size : Nat) : Option Bytes :=
  if offset + size ≤ p.data.length then
    some ((p.data.drop offset).take size)
  else
    none

/-- Model of `Page::available_space`: `capacity - used`, saturating. -/
def Page.available_space (p : Page) : Nat :=
  p.data.length - p.used

/-- Model of `Page::try_append_partial`: writes
`min (data.length) available` bytes; fails only when the page is full. -/
def Page.try_append_partial (p : Page) (data : Bytes) (now : Nat) :
    Except BlobError ((Nat × Nat) × Page) :=
  let available := p.available_space
  if available = 0 then
    .error .PageFull
  else
    let to_write := min data.length available
    let offset := p.used
    .ok ((offset, to_write),
      { p with
        data := writeBytes p.data offset (data.take to_write)
        used := offset + to_write
        entries := p.entries ++ [EntryMetadata.new offset to_write now]
        empty_since := 0 })

/-- Model of `Page::is_empty`: every entry acknowledged or expired (an empty
entry list counts as empty). -/
def Page.is_empty (p : Page) (ttl_ms now : Nat) : Bool :=
  p.entries.all (fun e => e.should_cleanup ttl_ms now)

/-- Model of `Page::mark_empty_if_needed`: a 0→now compare-and-set of
`empty_since` when the page is retired, otherwise an unconditional reset
to 0. -/
def Page.mark_empty_if_needed (p : Page) (ttl_ms now : Nat) : Page :=
  if p.is_empty ttl_ms now then
    if p.empty_since = 0 then { p with empty_since := now } else p
  else
    { p with empty_since := 0 }

/-- Model of `Page::should_decay`: retired, with a recorded `empty_since`,
and retired for longer than the decay timeout. -/
def Page.should_decay (p : Page) (decay_timeout_ms ttl_ms now : Nat) : Bool :=
  if ¬ p.is_empty ttl_ms now then false
  else if p.empty_since = 0 then false
  else now - p.empty_since > decay_timeout_ms

/-- Acknowledging the first entry of a list whose `offset` matches
(the `find` inside `Page::acknowledge_entry`); `none` when no entry
matches. -/
def ackFirst (es : List EntryMetadata) (offset : Nat) :
    Option (List EntryMetadata) :=
  match es with
  | [] => none
  | e :: rest =>
    if e.offset = offset then
      some (e.ack :: rest)
    else
      (ackFirst rest offset).map (e :: ·)

/-- Model of `Page::acknowledge_entry`: linear scan for the entry at
`offset`; sets its flag and reports whether a match was found. -/
def Page.acknowledge_entry (p : Page) (offset : Nat) : Bool × Page :=
  match ackFirst p.entries offset with
  | some es => (true, { p with entries := es })
  | none => (false, p)

/-- Model of `Page::active_entry_count`. -/
def Page.active_entry_count (p : Page) (ttl_ms now : Nat) : Nat :=
  (p.entries.filter (fun e => ¬ e.should_cleanup ttl_ms now)).length

/-- Handle into the store (`BlobHandle` in `src/types/types.rs`). -/
structure BlobHandle where
  page_id : Nat
  offset : Nat
  size : Nat
  timestamp : Nat
  generation : Nat
  end_page_id : Nat
  total_size : Nat
deriving DecidableEq, Repr

/-- Model of `BlobHandle::new` (single-page): `end_page_id = page_id`,
`total_size = size`. -/
def BlobHandle.new (page_id offset size generation now : Nat) : BlobHandle :=
  ⟨page_id, offset, size, now, generation, page_id, size⟩

/-- Model of `BlobHandle::new_multi_page`: `size` is the total size
saturated at `u32::MAX`. -/
def BlobHandle.new_multi_page (start_page_id start_offset end_page_id
    total_size generation now : Nat) : BlobHandle :=
  ⟨start_page_id, start_offset, min total_size (2 ^ 32 - 1), now, generation,
    end_page_id, total_size⟩

/-- Model of `BlobHandle::is_multi_page`. -/
def BlobHandle.is_multi_page (h : BlobHandle) : Bool :=
  h.end_page_id ≠ h.page_id

/-- Model of `BlobHandle::is_expired`: `now - self.timestamp > ttl_ms`. -/
def BlobHandle.is_expired (h : BlobHandle) (ttl_ms now : Nat) : Bool :=
  now - h.timestamp > ttl_ms

/-- Widths in bytes of the declared fields of the Rust `BlobHandle` struct,
in declaration order: `page_id : u32`, `offset : u32`, `size : u32`,
`timestamp : u64`, `generation : u32`, `end_page_id : u32`,
`total_size : u64`. -/
def blobHandleFieldWidths : List Nat := [4, 4, 4, 8, 4, 4, 8]

/-- Sum of the `BlobHandle` field widths. -/
def blobHandleFieldWidthSum : Nat := blobHandleFieldWidths.sum

/-- Model of `Config` from `src/types/types.rs`.  The `prefetch_threshold`
field (an `f32`) is omitted: no modelled operation reads it (the store's
prefetch step is commented out in the source). -/
structure Config where
  page_size : Nat
  decay_timeout_ms : Nat
  default_ttl_ms : Nat
deriving DecidableEq, Repr

/-- Model of `Config::default`. -/
def Config.default : Config :=
  ⟨1 * 1024 * 1024, 5000, 30000⟩

/-- Profiler counters (`src/profiling/mod.rs`), minus the float-valued and
clock-valued derived statistics. -/
structure Profiler where
  total_pages_allocated : Nat
  total_pages_freed : Nat
  total_appends : Nat
  total_reads : Nat
  total_cleanups : Nat
  multi_page_spans : Nat
  total_bytes_written : Nat
  total_bytes_read : Nat
  total_bytes_discarded : Nat
  total_capacity_allocated : Nat
  total_capacity_freed : Nat
deriving DecidableEq, Repr

/-- Model of `Profiler::new`: all counters zero. -/
def Profiler.new : Profiler :=
  ⟨0, 0, 0, 0, 0, 0, 0, 0, 0, 0, 0⟩

/-- Model of `Profiler::record_append`. -/
def Profiler.record_append (pr : Profiler) (size : Nat) : Profiler :=
  { pr with
    total_appends := pr.total_appends + 1
    total_bytes_written := pr.total_bytes_written + size }

/-- Model of `Profiler::record_read`. -/
def Profiler.record_read (pr : Profiler) (size : Nat) : Profiler :=
  { pr with
    total_reads := pr.total_reads + 1
    total_bytes_read := pr.total_bytes_read + size }

/-- Model of `Profiler::record_page_allocated`. -/
def Profiler.record_page_allocated (pr : Profiler) (capacity : Nat) : Profiler :=
  { pr with
    total_pages_allocated := pr.total_pages_allocated + 1
    total_capacity_allocated := pr.total_capacity_allocated + capacity }

/-- Model of `Profiler::record_page_cleanup`. -/
def Profiler.record_page_cleanup (pr : Profiler) (capacity used_data : Nat) :
    Profiler :=
  { pr with
    total_pages_freed := pr.total_pages_freed + 1
    total_capacity_freed := pr.total_capacity_freed + capacity
    total_bytes_discarded := pr.total_bytes_discarded + used_data }

/-- Model of `Profiler::record_cleanup`. -/
def Profiler.record_cleanup (pr : Profiler) : Profiler :=
  { pr with total_cleanups := pr.total_cleanups + 1 }

/-- Model of `Profiler::record_multi_page_span`. -/
def Profiler.record_multi_page_span (pr : Profiler) : Profiler :=
  { pr with multi_page_spans := pr.multi_page_spans + 1 }

/-- Model of the segmented backend (`src/backend/segmented.rs`): a keyed map
from page identifier to page, plus the list of live identifiers in insertion
order (a determinisation of `HashMap` key iteration for
`active_page_ids`). -/
@[ext]
structure Backend where
  pages : Nat → Option Page
  ids : List Nat

/-- Model of `SegmentedBackend::new`. -/
def Backend.empty : Backend :=
  ⟨fun _ => none, []⟩

/-- Model of `StorageBackend::get_page`. -/
def Backend.get_page (be : Backend) (id : Nat) : Option Page :=
  be.pages id

/-- Model of `SegmentedBackend::allocate_page`: a no-op when a live page
already has that identifier, otherwise insertion of a fresh page. -/
def Backend.allocate_page (be : Backend) (id size generation : Nat) : Backend :=
  if (be.pages id).isSome then be
  else
    ⟨fun x => if x = id then some (Page.new id size generation) else be.pages x,
      be.ids ++ [id]⟩

/-- Replacing the page stored at `id`.  This models an in-place mutation of
the page (through its atomics and locks) in the Rust code; the key set is
unchanged. -/
def Backend.update_page (be : Backend) (id : Nat) (p : Page) : Backend :=
  ⟨fun x => if x = id then some p else be.pages x, be.ids⟩

/-- Model of `SegmentedBackend::remove_page`: removes the page and reports
whether one was present. -/
def Backend.remove_page (be : Backend) (id : Nat) : Bool × Backend :=
  if (be.pages id).isSome then
    (true,
      ⟨fun x => if x = id then none else be.pages x,
        be.ids.filter (fun x => x ≠ id)⟩)
  else
    (false, be)

/-- Model of `SegmentedBackend::active_page_ids`. -/
def Backend.active_page_ids (be : Backend) : List Nat :=
  be.ids

/-- Model of `SegmentedBackend::page_count`. -/
def Backend.page_count (be : Backend) : Nat :=
  be.ids.length

/-- Removing one occurrence of the minimum of a list: the `pop` of the
min-heap `BinaryHeap<Reverse<u32>>` holding `free_pages`. -/
def popMin : List Nat → Option (Nat × List Nat)
  | [] => none
  | x :: xs =>
    match popMin xs with
    | none => some (x, [])
    | some (m, rest) => if x ≤ m then some (x, xs) else some (m, x :: rest)

/-- Model of the arena state (`PinnedBlobStore` in `src/page/store.rs`). -/
@[ext]
structure Store where
  backend : Backend
  config : Config
  current_page : Nat
  high_water_mark : Nat
  free_pages : List Nat
  generation_counter : Nat
  profiler : Profiler

/-- Model of `PinnedBlobStore::allocate_page`: bumps the generation counter
(the bump happens even when the backend insertion is an idempotent no-op,
exactly as in the Rust code, where `fetch_add` precedes the insertion) and
records the allocation in the profiler (the backend insertion always
returns `Ok`). -/
def Store.alloc_page (s : Store) (page_id : Nat) : Store :=
  let generation := s.generation_counter
  { s with
    generation_counter := s.generation_counter + 1
    backend := s.backend.allocate_page page_id s.config.page_size generation
    profiler := s.profiler.record_page_allocated s.config.page_size }

/-- Model of `PinnedBlobStore::new`: zeroed counters, then allocation of
page 0. -/
def Store.new (config : Config) : Store :=
  (⟨Backend.empty, config, 0, 0, [], 0, Profiler.new⟩ : Store).alloc_page 0

/-- Model of `PinnedBlobStore::allocate_next_available_page`: pop the
smallest recycled identifier, or reserve `high_water_mark + 1`. -/
def Store.allocate_next_available_page (s : Store) : Nat × Store :=
  match popMin s.free_pages with
  | some pr =>
    (pr.1, ({ s with free_pages := pr.2 } : Store).alloc_page pr.1)
  | none =>
    let next_id := s.high_water_mark + 1
    (next_id,
      ({ s with high_water_mark := s.high_water_mark + 1 } : Store).alloc_page next_id)

/-- Model of the retry loop inside `PinnedBlobStore::append` (the
single-page fast path).  The unbounded Rust `loop` is modelled with a fuel
parameter; exhausted fuel yields an error that no real execution reaches
(with data fitting a page, the retry after a hot-page rotation always
succeeds).  The lost-CAS tolerance of `compare_exchange` on `current_page`
is kept as a conditional update. -/
def Store.append_loop (s : Store) (data : Bytes) (now : Nat) :
    Nat → Except BlobError (BlobHandle × Store)
  | 0 => .error .OutOfMemory
  | fuel + 1 =>
    let current_page_id := s.current_page
    match s.backend.get_page current_page_id with
    | some page =>
      match page.try_append data now with
      | .ok r =>
        let handle := BlobHandle.new current_page_id r.1.1 r.1.2 page.generation now
        let s' :=
          { s with
            backend := s.backend.update_page current_page_id r.2
            profiler := s.profiler.record_append data.length }
        .ok (handle, s')
      | .error .PageFull =>
        let nx := s.allocate_next_available_page
        let s'' :=
          { nx.2 with
            current_page :=
              if nx.2.current_page = current_page_id then nx.1
              else nx.2.current_page }
        s''.append_loop data now fuel
      | .error e => .error e
    | none =>
      let nx := s.allocate_next_available_page
      let s'' :=
        { nx.2 with
          current_page :=
            if nx.2.current_page = current_page_id then nx.1
            else nx.2.current_page }
      s''.append_loop data now fuel

/-- Allocating every page of a reserved identifier range (the first loop of
`append_multi_page`). -/
def Store.alloc_range (s : Store) (start n : Nat) : Store :=
  (List.range' start n).foldl (fun acc pid => acc.alloc_page pid) s

/-- Model of the write loop of `append_multi_page`: fills the pages of the
reserved range left to right with `try_append_partial`, capturing the first
page's offset and generation at index `i = 0`.  A missing page yields
`PageFull`, as in the source (`ok_or(BlobError::PageFull)`). -/
def multiWrite (be : Backend) (pids : List Nat) (i : Nat) (remaining : Bytes)
    (start_offset : Option Nat) (first_generation : Nat) (now : Nat) :
    Except BlobError (Backend × Option Nat × Nat) :=
  match pids with
  | [] => .ok (be, start_offset, first_generation)
  | pid :: rest =>
    match be.get_page pid with
    | none => .error .PageFull
    | some page =>
      let first_generation := if i = 0 then page.generation else first_generation
      match Page.try_append_partial page remaining now with
      | .error e => .error e
      | .ok r =>
        let start_offset := if i = 0 then some r.1.1 else start_offset
        multiWrite (be.update_page pid r.2) rest (i + 1)
          (remaining.drop r.1.2) start_offset first_generation now

/-- Model of `PinnedBlobStore::append_multi_page`: reserves
`ceil(len / page_size)` consecutive identifiers by advancing
`high_water_mark` (first identifier = pre-add value + 1, bypassing
`free_pages`), allocates them all, then drains the payload through the
write loop. -/
def Store.append_multi_page (s : Store) (data : Bytes) (now : Nat) :
    Except BlobError (BlobHandle × Store) :=
  let chunk_size := s.config.page_size
  let num_pages := (data.length + chunk_size - 1) / chunk_size
  let start_page_id := s.high_water_mark + 1
  let end_page_id := start_page_id + num_pages - 1
  let s₁ := { s with high_water_mark := s.high_water_mark + num_pages }
  let s₂ := s₁.alloc_range start_page_id num_pages
  match multiWrite s₂.backend (List.range' start_page_id num_pages) 0 data
      none 0 now with
  | .error e => .error e
  | .ok r =>
    let s₃ :=
      { s₂ with
        backend := r.1
        profiler := (s₂.profiler.record_append data.length).record_multi_page_span }
    .ok (BlobHandle.new_multi_page start_page_id (r.2.1.getD 0)
          end_page_id data.length r.2.2 now, s₃)

/-- Model of `PinnedBlobStore::append`: empty payloads are rejected with
`DataTooLarge { size: 0 }`, payloads larger than a page go to the
multi-page path, the rest to the single-page retry loop. -/
def Store.append (s : Store) (data : Bytes) (now fuel : Nat) :
    Except BlobError (BlobHandle × Store) :=
  if data.isEmpty then
    .error (.DataTooLarge 0 s.config.page_size)
  else if data.length > s.config.page_size then
    s.append_multi_page data now
  else
    s.append_loop data now fuel

/-- Model of the page loop of `get_multi_page`: for each identifier of
`[start_page, end_page]`, the first page contributes
`used - start_offset` bytes from `start_offset`, the last page the still
missing `total_size - acc.length` bytes from offset 0, middle pages all
`used` bytes from offset 0, where `used` is recomputed as
`page_size - available_space` with the configured page size.  A missing
page aborts the whole read; a failed bounds check on `Page::get` merely
skips that page's contribution (`if let Some`). -/
def getMultiLoop (be : Backend) (h : BlobHandle) (page_capacity : Nat)
    (pids : List Nat) (acc : Bytes) : Option Bytes :=
  match pids with
  | [] => some acc
  | pid :: rest =>
    match be.get_page pid with
    | none => none
    | some page =>
      if pid = h.page_id then
        let available := page.available_space
        let used := page_capacity - available
        let to_read := used - h.offset
        match page.get h.offset to_read with
        | some d => getMultiLoop be h page_capacity rest (acc ++ d)
        | none => getMultiLoop be h page_capacity rest acc
      else if pid = h.end_page_id then
        let remaining := h.total_size - acc.length
        match page.get 0 remaining with
        | some d => getMultiLoop be h page_capacity rest (acc ++ d)
        | none => getMultiLoop be h page_capacity rest acc
      else
        let available := page.available_space
        let used := page_capacity - available
        match page.get 0 used with
        | some d => getMultiLoop be h page_capacity rest (acc ++ d)
        | none => getMultiLoop be h page_capacity rest acc

/-- Model of `PinnedBlobStore::get_multi_page`.  Note that, unlike the
single-page path, no page of the range is checked against the handle's
generation. -/
def Store.get_multi_page (s : Store) (h : BlobHandle) : Option Bytes × Store :=
  match getMultiLoop s.backend h s.config.page_size
      (List.range' h.page_id (h.end_page_id + 1 - h.page_id)) [] with
  | none => (none, s)
  | some result =>
    if result.isEmpty then
      (some result, s)
    else
      (some result,
        { s with
          profiler := (s.profiler.record_read result.length).record_multi_page_span })

/-- Model of `PinnedBlobStore::get`: TTL check on the handle, dispatch on
the handle shape; the single-page path validates the page's generation and
copies `size` bytes from `start_offset`. -/
def Store.get (s : Store) (h : BlobHandle) (now : Nat) : Option Bytes × Store :=
  if h.is_expired s.config.default_ttl_ms now then
    (none, s)
  else if h.is_multi_page then
    s.get_multi_page h
  else
    match s.backend.get_page h.page_id with
    | none => (none, s)
    | some page =>
      if page.generation ≠ h.generation then
        (none, s)
      else
        match page.get h.offset h.size with
        | none => (none, s)
        | some d =>
          (some d, { s with profiler := s.profiler.record_read h.size })

/-- Model of `PinnedBlobStore::acknowledge`: look up `start_page`, validate
the generation, acknowledge the entry at `start_offset`. -/
def Store.acknowledge (s : Store) (h : BlobHandle) : Bool × Store :=
  match s.backend.get_page h.page_id with
  | none => (false, s)
  | some page =>
    if page.generation = h.generation then
      ((page.acknowledge_entry h.offset).1,
        { s with
          backend :=
            s.backend.update_page h.page_id (page.acknowledge_entry h.offset).2 })
    else
      (false, s)

/-- Model of the page sweep inside `cleanup_acknowledged`, folding over the
snapshot of live identifiers.  The hot page (snapshot `current_active_page`)
is skipped; every other live page is first marked
(`mark_empty_if_needed`, an in-place update), then tested with
`should_decay`; decayed pages are removed, their identifier pushed onto
`free_pages`, and the reclamation recorded.  The `used_bytes` the profiler
receives approximates `usage() * page_size` (an `f32` round-trip in the
source) by the page's `used` cursor. -/
def Store.cleanup_pass (s : Store) (now current_active_page : Nat)
    (ids : List Nat) (freed : Nat) : Nat × Store :=
  match ids with
  | [] => (freed, s)
  | pid :: rest =>
    if pid = current_active_page then
      s.cleanup_pass now current_active_page rest freed
    else
      match s.backend.get_page pid with
      | none => s.cleanup_pass now current_active_page rest freed
      | some page =>
        let page' := page.mark_empty_if_needed s.config.default_ttl_ms now
        let decay := page'.should_decay s.config.decay_timeout_ms
          s.config.default_ttl_ms now
        let used_bytes := page'.used
        let s₁ := { s with backend := s.backend.update_page pid page' }
        if decay then
          let rem := s₁.backend.remove_page pid
          if rem.1 then
            let s₂ :=
              { s₁ with
                backend := rem.2
                free_pages := s₁.free_pages ++ [pid]
                profiler :=
                  s₁.profiler.record_page_cleanup s₁.config.page_size used_bytes }
            s₂.cleanup_pass now current_active_page rest (freed + 1)
          else
            ({ s₁ with backend := rem.2 } : Store).cleanup_pass now
              current_active_page rest freed
        else
          s₁.cleanup_pass now current_active_page rest freed

/-- Model of `PinnedBlobStore::cleanup_acknowledged`: snapshot the live
identifiers and the hot page, sweep, and record one cleanup event when at
least one page was freed. -/
def Store.cleanup_acknowledged (s : Store) (now : Nat) : Nat × Store :=
  let active_ids := s.backend.active_page_ids
  let current_active_page := s.current_page
  let fs := s.cleanup_pass now current_active_page active_ids 0
  if fs.1 > 0 then
    (fs.1, { fs.2 with profiler := fs.2.profiler.record_cleanup })
  else
    fs

/-- Shape of a freshly-allocated page after one `try_append_partial` of the
byte slice `chunk` (with `chunk.length ≤ P`): the chunk sits at offset 0,
the cursor equals the chunk length, and the page carries exactly one
unacknowledged entry.  Used to describe the pages produced by the
multi-page write loop. -/
def chunkPage (id P gen : Nat) (chunk : Bytes) (now : Nat) : Page :=
  ⟨id, chunk ++ List.replicate (P - chunk.length) 0, chunk.length, gen,
    [EntryMetadata.new 0 chunk.length now], 0⟩

/-!
Concrete executions used by the counterexamples and witnesses below.
`demoConfig` uses 4-byte pages, a zero decay timeout and a 100 ms TTL.
The run appends a five-byte blob spanning pages 1–2, acknowledges it
(which acknowledges the entry on page 1 only), sweeps twice so that page 1
decays and is recycled, fills the hot page 0, appends a one-byte blob that
lands on the recycled page 1, and finally reads the original multi-page
handle again.
-/

def demoConfig : Config := ⟨4, 0, 100⟩

def demoStore0 : Store := Store.new demoConfig

def demoBlob : Bytes := [10, 11, 12, 13, 14]

def demoR1 : Except BlobError (BlobHandle × Store) :=
  demoStore0.append demoBlob 0 1

def demoH1 : BlobHandle :=
  match demoR1 with
  | .ok (h, _) => h
  | .error _ => BlobHandle.new 0 0 0 0 0

def demoS1 : Store :=
  match demoR1 with
  | .ok (_, s) => s
  | .error _ => demoStore0

def demoS2 : Store := (demoS1.acknowledge demoH1).2

def demoS3 : Store := (demoS2.cleanup_acknowledged 1).2

def demoS4 : Store := (demoS3.cleanup_acknowledged 2).2

def demoR2 : Except BlobError (BlobHandle × Store) :=
  demoS4.append [20, 21, 22, 23] 3 2

def demoS5 : Store :=
  match demoR2 with
  | .ok (_, s) => s
  | .error _ => demoS4

def demoR3 : Except BlobError (BlobHandle × Store) :=
  demoS5.append [30] 3 2

def demoS6 : Store :=
  match demoR3 with
  | .ok (_, s) => s
  | .error _ => demoS5

/-- Page 1 as it stands after the first sweep of the demo run: fully
acknowledged, with `empty_since = 1`. -/
def demoPage1 : Page :=
  (demoS3.backend.get_page 1).getD (Page.new 0 0 0)

/-!
Helper lemmas about the byte-buffer model.
-/

theorem writeBytes_length (buf src : Bytes) (offset : Nat)
    (h : offset + src.length ≤ buf.length) :
    (writeBytes buf offset src).length = buf.length := by
  have hoff : offset ≤ buf.length := le_trans (Nat.le_add_right _ _) h
  simp [writeBytes, List.length_take, List.length_drop,
    Nat.min_eq_left hoff]
  omega

theorem writeBytes_readback (buf src : Bytes) (offset : Nat)
    (h : offset ≤ buf.length) :
    ((writeBytes buf offset src).drop offset).take src.length = src := by
  have hlen : (buf.take offset).length = offset := by
    simp [List.length_take, Nat.min_eq_left h]
  have hdrop : (writeBytes buf offset src).drop offset =
      src ++ buf.drop (offset + src.length) := by
    unfold writeBytes
    rw [List.append_assoc]
    have h2 := List.drop_left (buf.take offset)
      (src ++ buf.drop (offset + src.length))
    rwa [hlen] at h2
  rw [hdrop]
  exact List.take_left src (buf.drop (offset + src.length))

theorem writeBytes_replicate_zero (n : Nat) (src : Bytes) :
    writeBytes (List.replicate n 0) 0 src =
      src ++ List.replicate (n - src.length) 0 := by
  simp [writeBytes, List.drop_replicate]

/-!
Case lemmas for `Page.try_append` and `Page.try_append_partial`.
-/

theorem try_append_too_large (p : Page) (b : Bytes) (now : Nat)
    (h : p.data.length < b.length) :
    p.try_append b now = .error (.DataTooLarge b.length p.data.length) := by
  unfold Page.try_append
  rw [if_pos (by omega)]

theorem try_append_page_full (p : Page) (b : Bytes) (now : Nat)
    (h1 : b.length ≤ p.data.length) (h2 : p.data.length < p.used + b.length) :
    p.try_append b now = .error .PageFull := by
  unfold Page.try_append
  rw [if_neg (by omega), if_pos (by omega)]

theorem try_append_ok (p : Page) (b : Bytes) (now : Nat)
    (h1 : b.length ≤ p.data.length) (h2 : p.used + b.length ≤ p.data.length) :
    p.try_append b now = .ok ((p.used, b.length),
      { p with
        data := writeBytes p.data p.used b
        used := p.used + b.length
        entries := p.entries ++ [EntryMetadata.new p.used b.length now]
        empty_since := 0 }) := by
  unfold Page.try_append
  rw [if_neg (by omega), if_neg (by omega)]

theorem try_append_ok_inv (p : Page) (b : Bytes) (now : Nat)
    (r : Nat × Nat) (p' : Page)
    (h : p.try_append b now = .ok (r, p')) :
    r = (p.used, b.length) ∧
      p' = { p with
        data := writeBytes p.data p.used b
        used := p.used + b.length
        entries := p.entries ++ [EntryMetadata.new p.used b.length now]
        empty_since := 0 } ∧
      p.used + b.length ≤ p.data.length := by
  unfold Page.try_append at h
  by_cases h1 : b.length > p.data.length
  · rw [if_pos h1] at h
    exact absurd h (by simp)
  · rw [if_neg h1] at h
    by_cases h2 : p.used + b.length > p.data.length
    · rw [if_pos h2] at h
      exact absurd h (by simp)
    · rw [if_neg h2] at h
      simp only [Except.ok.injEq, Prod.mk.injEq] at h
      exact ⟨h.1.symm, h.2.symm, by omega⟩

/-- C4: `Page::try_append` returns `DataTooLarge` if and only if the payload
exceeds the page's capacity; otherwise, when `used + payload.len()` exceeds
the capacity it returns `PageFull` (the fetch-sub rollback leaving the page
unchanged, which the sequential model renders by returning no page at all);
otherwise it succeeds with offset equal to the old `used` and size equal to
`payload.len()`, advancing `used` by exactly `payload.len()` and appending
one new unacknowledged entry; consequently `used ≤ capacity` holds after
every call that started with `used ≤ capacity`. -/
theorem C4_try_append_contract (p : Page) (b : Bytes) (now : Nat) :
    (p.try_append b now = .error (.DataTooLarge b.length p.data.length) ↔
      p.data.length < b.length) ∧
    (b.length ≤ p.data.length → p.data.length < p.used + b.length →
      p.try_append b now = .error .PageFull) ∧
    (b.length ≤ p.data.length → p.used + b.length ≤ p.data.length →
      ∃ p', p.try_append b now = .ok ((p.used, b.length), p') ∧
        p'.used = p.used + b.length ∧
        p'.entries = p.entries ++ [⟨p.used, b.length, now, false⟩] ∧
        p'.data.length = p.data.length) ∧
    (∀ r p', p.try_append b now = .ok (r, p') → p.used ≤ p.data.length →
      p'.used ≤ p'.data.length) := by
  refine ⟨⟨fun h => ?_, fun h => try_append_too_large p b now h⟩,
    fun h1 h2 => try_append_page_full p b now h1 h2,
    fun h1 h2 => ?_, fun r p' h _ => ?_⟩
  · by_contra hc
    push_neg at hc
    by_cases h2 : p.data.length < p.used + b.length
    · rw [try_append_page_full p b now hc h2] at h
      exact absurd h (by simp)
    · rw [try_append_ok p b now hc (by omega)] at h
      exact absurd h (by simp)
  · refine ⟨_, try_append_ok p b now h1 h2, rfl, rfl, ?_⟩
    exact writeBytes_length p.data b p.used h2
  · obtain ⟨-, hp', hle⟩ := try_append_ok_inv p b now r p' h
    subst hp'
    simp only
    rw [writeBytes_length p.data b p.used hle]
    exact hle

/-- Witness for C4 at a concrete page: on a fresh 2-byte page, a 3-byte
payload is rejected as `DataTooLarge` and a 1-byte payload is accepted at
offset 0. -/
theorem C4_try_append_contract_witness :
    (Page.new 0 2 0).try_append [7, 8, 9] 5 =
      .error (.DataTooLarge 3 2) ∧
    (∃ p', (Page.new 0 2 0).try_append [7] 5 = .ok ((0, 1), p') ∧
      p'.used = 0 + 1 ∧
      p'.entries = [] ++ [⟨0, 1, 5, false⟩] ∧
      p'.data.length = 2) := by
  constructor
  · exact (C4_try_append_contract (Page.new 0 2 0) [7, 8, 9] 5).1.mpr
      (by decide)
  · exact (C4_try_append_contract (Page.new 0 2 0) [7] 5).2.2.1
      (by decide) (by decide)

/-- C3 (counterexample): the field widths of `BlobHandle` — `page_id : u32`,
`offset : u32`, `size : u32`, `timestamp : u64`, `generation : u32`,
`end_page_id : u32`, `total_size : u64` — do not sum to 32 bytes. -/
theorem C3_handle_not_32_bytes : blobHandleFieldWidthSum ≠ 32 := by decide

/-- C3 (amended): the field widths of `BlobHandle` sum to exactly 36 bytes
(the struct's own doc comment still claims 32, which predates the
`total_size : u64` field). -/
theorem C3_handle_field_width_sum : blobHandleFieldWidthSum = 36 := by decide

/-- C2: generation safety fails on the multi-page read path, which never
compares a page's generation with the handle's.  In the demo run the
five-byte blob `[10,11,12,13,14]` spans pages 1–2 with generation 1; its
start page is acknowledged, decays, is recycled with generation 3 and
receives the new byte `30`; `get` on the original, still-unexpired handle
then returns `[30, 14, 0, 0, 0]` — bytes of the new occupant (plus bytes
never written on page 2) — instead of the `none` the claim requires. -/
theorem C2_generation_safety_violated :
    demoH1.generation = 1 ∧
    (demoS6.backend.get_page demoH1.page_id).map (fun p => p.generation) =
      some 3 ∧
    demoH1.is_expired demoS6.config.default_ttl_ms 4 = false ∧
    demoH1.is_multi_page = true ∧
    (demoS6.get demoH1 4).1 = some [30, 14, 0, 0, 0] :=
  ⟨rfl, rfl, rfl, rfl, rfl⟩

/-- C9: `get` is read-only on the arena's storage state: whether the read
succeeds or not, and on both the single-page and the multi-page path, the
backend (hence every page's `used` cursor, entry list, acknowledged flags
and `empty_since`), `current_page`, `high_water_mark`, `free_pages` and the
generation counter are all exactly as before; only profiler counters may
change. -/
theorem C9_get_read_only (s : Store) (h : BlobHandle) (now : Nat) :
    (s.get h now).2.backend = s.backend ∧
    (s.get h now).2.current_page = s.current_page ∧
    (s.get h now).2.high_water_mark = s.high_water_mark ∧
    (s.get h now).2.free_pages = s.free_pages ∧
    (s.get h now).2.generation_counter = s.generation_counter ∧
    (s.get h now).2.config = s.config := by
  unfold Store.get Store.get_multi_page
  repeat' split
  all_goals exact ⟨rfl, rfl, rfl, rfl, rfl, rfl⟩

/-!
Lemmas about `ackFirst` and backend updates, for the acknowledgement
claims.
-/

theorem ackFirst_none_iff (es : List EntryMetadata) (off : Nat) :
    ackFirst es off = none ↔ ∀ e ∈ es, e.offset ≠ off := by
  induction es with
  | nil => simp [ackFirst]
  | cons e rest ih =>
    by_cases he : e.offset = off
    · simp [ackFirst, he]
    · simp [ackFirst, he, ih]

theorem ackFirst_some_spec (es : List EntryMetadata) (off : Nat)
    (es' : List EntryMetadata) (h : ackFirst es off = some es') :
    ∃ l e r, es = l ++ e :: r ∧ e.offset = off ∧
      (∀ x ∈ l, x.offset ≠ off) ∧ es' = l ++ e.ack :: r := by
  induction es generalizing es' with
  | nil => exact absurd h (by simp [ackFirst])
  | cons e rest ih =>
    by_cases he : e.offset = off
    · rw [ackFirst, if_pos he] at h
      exact ⟨[], e, rest, by simp, he, by simp, by simpa using h.symm⟩
    · rw [ackFirst, if_neg he] at h
      obtain ⟨rs, hrs, hes'⟩ := Option.map_eq_some'.mp h
      obtain ⟨l, x, r, h1, h2, h3, h4⟩ := ih rs hrs
      exact ⟨e :: l, x, r, by simp [h1], h2,
        by simpa [he] using h3, by simp [← hes', h4]⟩

theorem ackFirst_idem (es es' : List EntryMetadata) (off : Nat)
    (h : ackFirst es off = some es') : ackFirst es' off = some es' := by
  induction es generalizing es' with
  | nil => exact absurd h (by simp [ackFirst])
  | cons e rest ih =>
    by_cases he : e.offset = off
    · rw [ackFirst, if_pos he] at h
      obtain rfl : e.ack :: rest = es' := by simpa using h
      rw [ackFirst, if_pos (show e.ack.offset = off from he)]
      rfl
    · rw [ackFirst, if_neg he] at h
      obtain ⟨rs, hrs, hes'⟩ := Option.map_eq_some'.mp h
      subst hes'
      rw [ackFirst, if_neg he, ih rs hrs]
      rfl

theorem update_page_get_same (be : Backend) (id : Nat) (p : Page) :
    (be.update_page id p).get_page id = some p := by
  simp [Backend.update_page, Backend.get_page]

theorem update_page_get_other (be : Backend) (id x : Nat) (p : Page)
    (h : x ≠ id) : (be.update_page id p).get_page x = be.get_page x := by
  simp [Backend.update_page, Backend.get_page, h]

theorem update_page_self (be : Backend) (id : Nat) (p : Page)
    (h : be.get_page id = some p) : be.update_page id p = be := by
  cases be with
  | mk pages ids =>
    unfold Backend.update_page
    rw [Backend.mk.injEq]
    refine ⟨funext fun x => ?_, rfl⟩
    by_cases hx : x = id
    · subst hx
      rw [if_pos rfl]
      exact h.symm
    · rw [if_neg hx]

theorem update_page_twice (be : Backend) (id : Nat) (p : Page) :
    (be.update_page id p).update_page id p = be.update_page id p :=
  update_page_self _ _ _ (update_page_get_same be id p)

theorem acknowledge_of_none (s : Store) (h : BlobHandle)
    (hget : s.backend.get_page h.page_id = none) :
    s.acknowledge h = (false, s) := by
  unfold Store.acknowledge
  rw [hget]

theorem acknowledge_of_some (s : Store) (h : BlobHandle) (page : Page)
    (hget : s.backend.get_page h.page_id = some page) :
    s.acknowledge h =
      if page.generation = h.generation then
        ((page.acknowledge_entry h.offset).1,
          { s with
            backend :=
              s.backend.update_page h.page_id
                (page.acknowledge_entry h.offset).2 })
      else (false, s) := by
  unfold Store.acknowledge
  rw [hget]

theorem acknowledge_entry_of_none (p : Page) (off : Nat)
    (h : ackFirst p.entries off = none) :
    p.acknowledge_entry off = (false, p) := by
  unfold Page.acknowledge_entry
  rw [h]

theorem acknowledge_entry_of_some (p : Page) (off : Nat)
    (es : List EntryMetadata) (h : ackFirst p.entries off = some es) :
    p.acknowledge_entry off = (true, { p with entries := es }) := by
  unfold Page.acknowledge_entry
  rw [h]

/-- C10: `acknowledge` is idempotent: whenever `acknowledge(&h)` returns
`true` producing state `s'`, an immediately repeated `acknowledge(&h)`
also returns `true` and leaves `s'` exactly unchanged (the matched entry's
flag is simply stored as `true` again). -/
theorem C10_acknowledge_idempotent (s s' : Store) (h : BlobHandle)
    (hack : s.acknowledge h = (true, s')) :
    s'.acknowledge h = (true, s') := by
  cases hget : s.backend.get_page h.page_id with
  | none =>
    rw [acknowledge_of_none s h hget] at hack
    exact absurd hack (by simp)
  | some page =>
    rw [acknowledge_of_some s h page hget] at hack
    by_cases hgen : page.generation = h.generation
    · rw [if_pos hgen] at hack
      cases haf : ackFirst page.entries h.offset with
      | none =>
        rw [acknowledge_entry_of_none page h.offset haf] at hack
        exact absurd hack (by simp)
      | some es =>
        rw [acknowledge_entry_of_some page h.offset es haf] at hack
        simp only [Prod.mk.injEq] at hack
        obtain ⟨-, hs'⟩ := hack
        subst hs'
        rw [acknowledge_of_some _ h { page with entries := es }
          (update_page_get_same _ _ _), if_pos hgen]
        have haf' : ackFirst ({ page with entries := es } : Page).entries
            h.offset = some es :=
          ackFirst_idem page.entries es h.offset haf
        rw [acknowledge_entry_of_some _ h.offset es haf']
        refine Prod.ext rfl ?_
        simp only
        rw [update_page_twice]
    · rw [if_neg hgen] at hack
      exact absurd hack (by simp)

/-- Witness for C10: in the demo run, re-acknowledging the multi-page
handle right after a successful acknowledgement returns `true` again and
leaves the state unchanged. -/
theorem C10_acknowledge_idempotent_witness :
    demoS2.acknowledge demoH1 = (true, demoS2) :=
  C10_acknowledge_idempotent demoS1 demoS2 demoH1 rfl

/-- C6: `acknowledge(&h)` modifies at most the single (first) entry at
offset `h.start_offset` on page `h.start_page`: all other store fields and
all other pages — in particular, for a multi-page handle, every page from
`start_page + 1` through `end_page` — are untouched, so their entries stay
unacknowledged; the call returns `false` with no state change whatsoever
when the page is absent, its generation differs from the handle's, or no
entry matches the offset. -/
theorem C6_acknowledge_frame (s : Store) (h : BlobHandle) (r : Bool)
    (s' : Store) (hack : s.acknowledge h = (r, s')) :
    s'.current_page = s.current_page ∧
    s'.high_water_mark = s.high_water_mark ∧
    s'.free_pages = s.free_pages ∧
    s'.generation_counter = s.generation_counter ∧
    s'.config = s.config ∧
    s'.profiler = s.profiler ∧
    (∀ pid, pid ≠ h.page_id →
      s'.backend.get_page pid = s.backend.get_page pid) ∧
    (∀ pid, h.page_id + 1 ≤ pid → pid ≤ h.end_page_id →
      s'.backend.get_page pid = s.backend.get_page pid) ∧
    (r = false → s' = s) ∧
    (s.backend.get_page h.page_id = none → r = false) ∧
    (∀ page, s.backend.get_page h.page_id = some page →
      page.generation ≠ h.generation → r = false) ∧
    (∀ page, s.backend.get_page h.page_id = some page →
      (∀ e ∈ page.entries, e.offset ≠ h.offset) → r = false) ∧
    (r = true → ∀ page, s.backend.get_page h.page_id = some page →
      ∃ l e rest, page.entries = l ++ e :: rest ∧ e.offset = h.offset ∧
        (∀ x ∈ l, x.offset ≠ h.offset) ∧
        s'.backend.get_page h.page_id =
          some { page with entries := l ++ e.ack :: rest }) := by
  have key : (r = false ∧ s' = s) ∨
      (r = true ∧ ∃ page es, s.backend.get_page h.page_id = some page ∧
        page.generation = h.generation ∧
        ackFirst page.entries h.offset = some es ∧
        s' = { s with
          backend :=
            s.backend.update_page h.page_id { page with entries := es } }) := by
    cases hget : s.backend.get_page h.page_id with
    | none =>
      rw [acknowledge_of_none s h hget] at hack
      obtain ⟨h1, h2⟩ := Prod.mk.inj hack
      exact Or.inl ⟨h1.symm, h2.symm⟩
    | some page =>
      rw [acknowledge_of_some s h page hget] at hack
      by_cases hgen : page.generation = h.generation
      · rw [if_pos hgen] at hack
        cases haf : ackFirst page.entries h.offset with
        | none =>
          rw [acknowledge_entry_of_none page h.offset haf] at hack
          obtain ⟨h1, h2⟩ := Prod.mk.inj hack
          refine Or.inl ⟨h1.symm, ?_⟩
          rw [← h2]
          have hself : s.backend.update_page h.page_id page = s.backend :=
            update_page_self _ _ _ hget
          show ({ s with backend := s.backend.update_page h.page_id page } :
            Store) = s
          rw [hself]
        | some es =>
          rw [acknowledge_entry_of_some page h.offset es haf] at hack
          obtain ⟨h1, h2⟩ := Prod.mk.inj hack
          exact Or.inr ⟨h1.symm, page, es, rfl, hgen, haf, h2.symm⟩
      · rw [if_neg hgen] at hack
        obtain ⟨h1, h2⟩ := Prod.mk.inj hack
        exact Or.inl ⟨h1.symm, h2.symm⟩
  obtain ⟨hr, hs'⟩ | ⟨hr, page, es, hget, hgen, haf, hs'⟩ := key
  · subst hr hs'
    refine ⟨rfl, rfl, rfl, rfl, rfl, rfl, fun _ _ => rfl, fun _ _ _ => rfl,
      fun _ => rfl, fun _ => rfl, fun _ _ _ => rfl, fun _ _ _ => rfl,
      fun hrt => absurd hrt (by simp)⟩
  · subst hr hs'
    refine ⟨rfl, rfl, rfl, rfl, rfl, rfl,
      fun pid hpid => update_page_get_other _ _ _ _ hpid,
      fun pid h1 h2 => update_page_get_other _ _ _ _ (by omega),
      fun hrf => absurd hrf (by simp), ?_, ?_, ?_, ?_⟩
    · intro hnone
      rw [hget] at hnone
      cases hnone
    · intro page' hp hgen'
      obtain rfl : page = page' := Option.some.inj (hget.symm.trans hp)
      exact absurd hgen hgen'
    · intro page' hp hnm
      obtain rfl : page = page' := Option.some.inj (hget.symm.trans hp)
      have hnone := (ackFirst_none_iff page.entries h.offset).mpr hnm
      exact absurd (hnone.symm.trans haf) (by simp)
    · intro _ page' hp
      obtain rfl : page = page' := Option.some.inj (hget.symm.trans hp)
      obtain ⟨l, e, rest, h1, h2, h3, h4⟩ :=
        ackFirst_some_spec page.entries h.offset es haf
      refine ⟨l, e, rest, h1, h2, h3, ?_⟩
      exact (update_page_get_same _ _ _).trans (by rw [h4])

/-- Witness for C6: acknowledging the demo multi-page handle modifies the
store but leaves `current_page`, the profiler and the trailing page 2 of
the handle's range unchanged. -/
theorem C6_acknowledge_frame_witness :
    demoS2.current_page = demoS1.current_page ∧
    demoS2.profiler = demoS1.profiler ∧
    demoS2.backend.get_page 2 = demoS1.backend.get_page 2 := by
  have hc := C6_acknowledge_frame demoS1 demoH1 true demoS2 rfl
  exact ⟨hc.1, hc.2.2.2.2.2.1,
    hc.2.2.2.2.2.2.2.1 2 (by decide) (by decide)⟩

/-!
Lemmas about `mark_empty_if_needed`, `should_decay`, `remove_page` and the
cleanup sweep.
-/

theorem mark_entries (p : Page) (ttl now : Nat) :
    (p.mark_empty_if_needed ttl now).entries = p.entries := by
  unfold Page.mark_empty_if_needed
  split
  · split <;> rfl
  · rfl

theorem mark_is_empty (p : Page) (ttl now : Nat) :
    (p.mark_empty_if_needed ttl now).is_empty ttl now = p.is_empty ttl now := by
  rw [Page.is_empty, Page.is_empty, mark_entries]

theorem mark_idem (p : Page) (ttl now : Nat) :
    (p.mark_empty_if_needed ttl now).mark_empty_if_needed ttl now =
      p.mark_empty_if_needed ttl now := by
  unfold Page.mark_empty_if_needed
  by_cases he : p.is_empty ttl now
  · rw [if_pos he]
    by_cases hz : p.empty_since = 0
    · rw [if_pos hz]
      rw [if_pos (show ({ p with empty_since := now } : Page).is_empty ttl now
        from he)]
      split <;> rfl
    · rw [if_neg hz, if_pos he, if_neg hz]
  · rw [if_neg he]
    rw [if_neg (show ¬ ({ p with empty_since := 0 } : Page).is_empty ttl now
      from he)]

theorem should_decay_mark (p : Page) (d ttl now : Nat)
    (h : (p.mark_empty_if_needed ttl now).should_decay d ttl now = true) :
    p.is_empty ttl now = true ∧ p.empty_since ≠ 0 ∧
      d < now - p.empty_since := by
  by_cases he : p.is_empty ttl now
  · by_cases hz : p.empty_since = 0
    · exfalso
      rw [Page.mark_empty_if_needed, if_pos he, if_pos hz] at h
      rw [Page.should_decay] at h
      rw [if_neg (show ¬ ¬ ({ p with empty_since := now } : Page).is_empty
        ttl now from not_not_intro he)] at h
      by_cases hn : now = 0
      · rw [if_pos (show ({ p with empty_since := now } : Page).empty_since = 0
          from hn)] at h
        exact absurd h (by simp)
      · rw [if_neg (show ¬ ({ p with empty_since := now } : Page).empty_since = 0
          from hn)] at h
        simp only [decide_eq_true_eq] at h
        omega
    · rw [Page.mark_empty_if_needed, if_pos he, if_neg hz] at h
      rw [Page.should_decay, if_neg (not_not_intro he), if_neg hz] at h
      exact ⟨he, hz, by simpa using h⟩
  · exfalso
    rw [Page.mark_empty_if_needed, if_neg he] at h
    rw [Page.should_decay] at h
    rw [if_pos (show ¬ ({ p with empty_since := 0 } : Page).is_empty ttl now
      from he)] at h
    exact absurd h (by simp)

theorem remove_page_of_isSome (be : Backend) (pid : Nat)
    (h : (be.pages pid).isSome = true) :
    be.remove_page pid =
      (true, ⟨fun x => if x = pid then none else be.pages x,
        be.ids.filter (fun x => x ≠ pid)⟩) := by
  unfold Backend.remove_page
  rw [if_pos h]

theorem remove_page_get_other (be : Backend) (pid x : Nat) (h : x ≠ pid) :
    (be.remove_page pid).2.get_page x = be.get_page x := by
  unfold Backend.remove_page
  split
  · simp [Backend.get_page, h]
  · rfl

/-- The cleanup sweep never touches the page whose identifier equals the
snapshotted hot page, and never changes `current_page`. -/
theorem cleanup_pass_hot (now cap : Nat) :
    ∀ (ids : List Nat) (s : Store) (freed : Nat),
    (s.cleanup_pass now cap ids freed).2.backend.get_page cap =
      s.backend.get_page cap ∧
    (s.cleanup_pass now cap ids freed).2.current_page = s.current_page := by
  intro ids
  induction ids with
  | nil => exact fun s freed => ⟨rfl, rfl⟩
  | cons pid rest ih =>
    intro s freed
    rw [Store.cleanup_pass]
    by_cases hpid : pid = cap
    · rw [if_pos hpid]
      exact ih s freed
    · rw [if_neg hpid]
      cases hget : s.backend.get_page pid with
      | none =>
        simp only [hget]
        exact ih s freed
      | some page =>
        simp only [hget]
        by_cases hdecay : (page.mark_empty_if_needed s.config.default_ttl_ms
            now).should_decay s.config.decay_timeout_ms
            s.config.default_ttl_ms now
        · rw [if_pos hdecay]
          have hrem := remove_page_of_isSome
            (s.backend.update_page pid
              (page.mark_empty_if_needed s.config.default_ttl_ms now)) pid
            (by simp [Backend.update_page])
          simp only [hrem, if_true]
          refine ⟨(ih _ _).1.trans ?_, (ih _ _).2⟩
          have hcp : ¬ cap = pid := fun hh => hpid hh.symm
          simp [Backend.get_page, Backend.update_page, hcp]
        · rw [if_neg hdecay]
          refine ⟨(ih _ _).1.trans ?_, (ih _ _).2⟩
          exact update_page_get_other _ _ _ _ (fun h => hpid h.symm)

theorem cleanup_ack_proj (s : Store) (now : Nat) :
    (s.cleanup_acknowledged now).2.backend =
      (s.cleanup_pass now s.current_page s.backend.active_page_ids 0).2.backend ∧
    (s.cleanup_acknowledged now).2.current_page =
      (s.cleanup_pass now s.current_page
        s.backend.active_page_ids 0).2.current_page := by
  simp only [Store.cleanup_acknowledged]
  split
  · exact ⟨rfl, rfl⟩
  · exact ⟨rfl, rfl⟩

/-- C8: no cleanup call removes the page whose identifier equals
`current_page` as snapshotted at cleanup entry: whatever was stored under
that identifier — whether or not its entries are retired — is still there,
unchanged, when cleanup returns, and `current_page` itself is untouched. -/
theorem C8_hot_page_persistence (s : Store) (now : Nat) :
    (s.cleanup_acknowledged now).2.backend.get_page s.current_page =
      s.backend.get_page s.current_page ∧
    (s.cleanup_acknowledged now).2.current_page = s.current_page := by
  have key := cleanup_pass_hot now s.current_page s.backend.active_page_ids s 0
  obtain ⟨k1, k2⟩ := cleanup_ack_proj s now
  exact ⟨(congrArg (fun be => be.get_page s.current_page) k1).trans key.1,
    k2.trans key.2⟩

/-- During a sweep, a page can only disappear from the backend if the page
as it stood at the start of the sweep (possibly already marked once) was
retired, had a non-zero `empty_since`, and had been retired for longer than
the decay timeout.  The disjunctive hypothesis threads through the sweep:
a page is either still exactly as at entry or has been marked once. -/
theorem cleanup_pass_removed_conditions (now cap ttl decay : Nat) :
    ∀ (ids : List Nat) (s : Store) (freed : Nat) (pid : Nat) (page : Page),
    s.config.default_ttl_ms = ttl → s.config.decay_timeout_ms = decay →
    (s.backend.get_page pid = some page ∨
      s.backend.get_page pid = some (page.mark_empty_if_needed ttl now)) →
    (s.cleanup_pass now cap ids freed).2.backend.get_page pid = none →
    page.is_empty ttl now = true ∧ page.empty_since ≠ 0 ∧
      decay < now - page.empty_since := by
  intro ids
  induction ids with
  | nil =>
    intro s freed pid page _ _ hpage hnone
    rw [Store.cleanup_pass] at hnone
    cases hpage with
    | inl hp => rw [hp] at hnone; cases hnone
    | inr hp => rw [hp] at hnone; cases hnone
  | cons pid' rest ih =>
    intro s freed pid page httl hdec hpage hnone
    rw [Store.cleanup_pass] at hnone
    by_cases hpid' : pid' = cap
    · rw [if_pos hpid'] at hnone
      exact ih s freed pid page httl hdec hpage hnone
    · rw [if_neg hpid'] at hnone
      cases hget : s.backend.get_page pid' with
      | none =>
        simp only [hget] at hnone
        exact ih s freed pid page httl hdec hpage hnone
      | some q =>
        simp only [hget] at hnone
        by_cases hdecay : (q.mark_empty_if_needed s.config.default_ttl_ms
            now).should_decay s.config.decay_timeout_ms
            s.config.default_ttl_ms now
        · rw [if_pos hdecay] at hnone
          have hrem := remove_page_of_isSome
            (s.backend.update_page pid'
              (q.mark_empty_if_needed s.config.default_ttl_ms now)) pid'
            (by simp [Backend.update_page])
          simp only [hrem, if_true] at hnone
          by_cases hpp : pid' = pid
          · subst hpp
            -- the removed page is the one we are tracking
            have hq : q = page ∨ q = page.mark_empty_if_needed ttl now := by
              cases hpage with
              | inl hp => exact Or.inl (Option.some.inj (hget.symm.trans hp))
              | inr hp => exact Or.inr (Option.some.inj (hget.symm.trans hp))
            have hmark : q.mark_empty_if_needed ttl now =
                page.mark_empty_if_needed ttl now := by
              cases hq with
              | inl h => rw [h]
              | inr h => rw [h, mark_idem]
            rw [httl, hdec] at hdecay
            rw [hmark] at hdecay
            exact should_decay_mark page decay ttl now hdecay
          · refine ih _ _ pid page ?_ ?_ ?_ hnone
            · exact httl
            · exact hdec
            · have hpp' : ¬ pid = pid' := fun hh => hpp hh.symm
              have heq : (⟨fun x =>
                  if x = pid' then none
                  else (s.backend.update_page pid'
                    (q.mark_empty_if_needed s.config.default_ttl_ms now)).pages x,
                  (s.backend.update_page pid'
                    (q.mark_empty_if_needed s.config.default_ttl_ms
                      now)).ids.filter (fun x => x ≠ pid')⟩ :
                  Backend).get_page pid = s.backend.get_page pid := by
                simp only [Backend.get_page, Backend.update_page, if_neg hpp']
              cases hpage with
              | inl hp => exact Or.inl (heq.trans hp)
              | inr hp => exact Or.inr (heq.trans hp)
        · rw [if_neg hdecay] at hnone
          by_cases hpp : pid' = pid
          · subst hpp
            refine ih _ _ pid' page ?_ ?_ ?_ hnone
            · exact httl
            · exact hdec
            · have hq : q = page ∨ q = page.mark_empty_if_needed ttl now := by
                cases hpage with
                | inl hp => exact Or.inl (Option.some.inj (hget.symm.trans hp))
                | inr hp => exact Or.inr (Option.some.inj (hget.symm.trans hp))
              have hmark : q.mark_empty_if_needed ttl now =
                  page.mark_empty_if_needed ttl now := by
                cases hq with
                | inl h => rw [h]
                | inr h => rw [h, mark_idem]
              refine Or.inr ?_
              exact (update_page_get_same s.backend pid'
                (q.mark_empty_if_needed s.config.default_ttl_ms now)).trans
                (by rw [httl, hmark])
          · refine ih _ _ pid page ?_ ?_ ?_ hnone
            · exact httl
            · exact hdec
            · have hpp' : ¬ pid = pid' := fun hh => hpp hh.symm
              have heq := update_page_get_other s.backend pid' pid
                (q.mark_empty_if_needed s.config.default_ttl_ms now) hpp'
              cases hpage with
              | inl hp => exact Or.inl (heq.trans hp)
              | inr hp => exact Or.inr (heq.trans hp)

/-- C7: two-phase decay — a cleanup call removes a page only when every
entry on it was (at sweep time) acknowledged or TTL-expired, its
`empty_since` timestamp was already non-zero at cleanup entry, and
`now − empty_since` exceeds `decay_timeout_ms`.  In particular the sweep
that first observes a page fully retired (`empty_since = 0` at entry) only
records the timestamp and never removes the page in that same sweep. -/
theorem C7_two_phase_decay (s : Store) (now pid : Nat) (page : Page)
    (hpage : s.backend.get_page pid = some page)
    (hremoved : (s.cleanup_acknowledged now).2.backend.get_page pid = none) :
    page.is_empty s.config.default_ttl_ms now = true ∧
    page.empty_since ≠ 0 ∧
    s.config.decay_timeout_ms < now - page.empty_since := by
  have hproj := (cleanup_ack_proj s now).1
  rw [hproj] at hremoved
  exact cleanup_pass_removed_conditions now s.current_page
    s.config.default_ttl_ms s.config.decay_timeout_ms
    s.backend.active_page_ids s 0 pid page rfl rfl (Or.inl hpage) hremoved

/-- Witness for C7: in the demo run, the sweep at `now = 2` removes page 1
(marked at `now = 1` by the previous sweep); the theorem certifies the page
was retired, carried `empty_since = 1 ≠ 0`, and had out-waited the zero
decay timeout. -/
theorem C7_two_phase_decay_witness :
    demoS3.backend.get_page 1 = some demoPage1 ∧
    (demoS3.cleanup_acknowledged 2).2.backend.get_page 1 = none ∧
    demoPage1.is_empty demoS3.config.default_ttl_ms 2 = true ∧
    demoPage1.empty_since ≠ 0 ∧
    demoS3.config.decay_timeout_ms < 2 - demoPage1.empty_since := by
  have hc := C7_two_phase_decay demoS3 2 1 demoPage1 rfl rfl
  exact ⟨rfl, rfl, hc.1, hc.2.1, hc.2.2⟩

/-!
The multi-page write path: allocation of the reserved range and the
page-filling loop.
-/

theorem try_append_partial_fresh (id P gen : Nat) (d : Bytes) (now : Nat)
    (hP : 0 < P) :
    Page.try_append_partial (Page.new id P gen) d now =
      .ok ((0, min d.length P),
        chunkPage id P gen (d.take (min d.length P)) now) := by
  have hlt : (d.take (min d.length P)).length = min d.length P := by
    rw [List.length_take]
    omega
  unfold Page.try_append_partial Page.new Page.available_space chunkPage
  simp only [List.length_replicate, Nat.sub_zero]
  rw [if_neg hP.ne', writeBytes_replicate_zero]
  simp [hlt]

theorem alloc_page_get_fresh (s : Store) (pid : Nat)
    (h : s.backend.get_page pid = none) :
    (s.alloc_page pid).backend.get_page pid =
      some (Page.new pid s.config.page_size s.generation_counter) := by
  have h' : s.backend.pages pid = none := h
  unfold Store.alloc_page Backend.allocate_page Backend.get_page
  simp [h']

theorem alloc_page_get_other (s : Store) (pid x : Nat) (hx : x ≠ pid) :
    (s.alloc_page pid).backend.get_page x = s.backend.get_page x := by
  unfold Store.alloc_page Backend.allocate_page Backend.get_page
  simp only
  split
  · rfl
  · simp [hx]

theorem alloc_page_frame (s : Store) (pid : Nat) :
    (s.alloc_page pid).config = s.config ∧
    (s.alloc_page pid).current_page = s.current_page ∧
    (s.alloc_page pid).high_water_mark = s.high_water_mark ∧
    (s.alloc_page pid).free_pages = s.free_pages ∧
    (s.alloc_page pid).generation_counter = s.generation_counter + 1 :=
  ⟨rfl, rfl, rfl, rfl, rfl⟩

theorem alloc_range_zero (s : Store) (start : Nat) :
    s.alloc_range start 0 = s := rfl

theorem alloc_range_cons (s : Store) (start n : Nat) :
    s.alloc_range start (n + 1) = (s.alloc_page start).alloc_range (start + 1) n := by
  unfold Store.alloc_range
  rw [List.range'_succ]
  rfl

theorem alloc_range_spec (P : Nat) :
    ∀ (n : Nat) (s : Store) (start c : Nat),
    s.config.page_size = P → s.generation_counter = c →
    (∀ k, k < n → s.backend.get_page (start + k) = none) →
    (∀ k, k < n → (s.alloc_range start n).backend.get_page (start + k) =
      some (Page.new (start + k) P (c + k))) ∧
    (∀ x, (x < start ∨ start + n ≤ x) →
      (s.alloc_range start n).backend.get_page x = s.backend.get_page x) ∧
    (s.alloc_range start n).config = s.config ∧
    (s.alloc_range start n).current_page = s.current_page ∧
    (s.alloc_range start n).high_water_mark = s.high_water_mark ∧
    (s.alloc_range start n).free_pages = s.free_pages ∧
    (s.alloc_range start n).generation_counter = c + n := by
  intro n
  induction n with
  | zero =>
    intro s start c _ hc _
    rw [alloc_range_zero]
    exact ⟨fun k hk => absurd hk (by omega), fun x _ => rfl, rfl, rfl, rfl,
      rfl, by omega⟩
  | succ m ih =>
    intro s start c hP hc hfresh
    rw [alloc_range_cons]
    have hfresh0 : s.backend.get_page start = none := by
      have := hfresh 0 (by omega)
      simpa using this
    have hfresh' : ∀ k, k < m →
        (s.alloc_page start).backend.get_page (start + 1 + k) = none := by
      intro k hk
      rw [alloc_page_get_other s start (start + 1 + k) (by omega)]
      have := hfresh (k + 1) (by omega)
      rw [show start + (k + 1) = start + 1 + k by omega] at this
      exact this
    obtain ⟨hin, hout, hcfg, hcur, hhwm, hfree, hgen⟩ :=
      ih (s.alloc_page start) (start + 1) (c + 1)
        ((alloc_page_frame s start).1 ▸ hP)
        (by rw [(alloc_page_frame s start).2.2.2.2, hc])
        hfresh'
    refine ⟨?_, ?_, hcfg.trans (alloc_page_frame s start).1,
      hcur.trans (alloc_page_frame s start).2.1,
      hhwm.trans (alloc_page_frame s start).2.2.1,
      hfree.trans (alloc_page_frame s start).2.2.2.1, by omega⟩
    · intro k hk
      match k with
      | 0 =>
        exact (hout start (Or.inl (by omega))).trans
          (by rw [alloc_page_get_fresh s start hfresh0, hP, hc]; rfl)
      | j + 1 =>
        have hj := hin j (by omega)
        rw [show start + 1 + j = start + (j + 1) by omega,
          show c + 1 + j = c + (j + 1) by omega] at hj
        exact hj
    · intro x hx
      rw [hout x (by omega)]
      exact alloc_page_get_other s start x (by omega)

theorem multiWrite_tail (P now : Nat) (hP : 0 < P) :
    ∀ (n : Nat) (be : Backend) (start : Nat) (d : Bytes) (i : Nat)
      (so : Option Nat) (fg g : Nat),
    1 ≤ i → 1 ≤ n →
    (∀ k, k < n → be.get_page (start + k) =
      some (Page.new (start + k) P (g + k))) →
    (n - 1) * P < d.length → d.length ≤ n * P →
    ∃ be', multiWrite be (List.range' start n) i d so fg now =
        .ok (be', so, fg) ∧
      (∀ k, k < n → be'.get_page (start + k) =
        some (chunkPage (start + k) P (g + k) ((d.drop (k * P)).take P) now)) ∧
      (∀ x, (x < start ∨ start + n ≤ x) → be'.get_page x = be.get_page x) ∧
      be'.ids = be.ids := by
  intro n
  induction n with
  | zero =>
    intro be start d i so fg g hi hn hfresh hl1 hl2
    exact absurd hn (by omega)
  | succ m ih =>
    intro be start d i so fg g hi hn hfresh hl1 hl2
    have hfresh0 : be.get_page start = some (Page.new start P g) := by
      have := hfresh 0 (by omega)
      simpa using this
    have hi0 : ¬ i = 0 := by omega
    simp only [List.range'_succ, multiWrite, hfresh0, if_neg hi0,
      try_append_partial_fresh start P g d now hP]
    by_cases hm : m = 0
    · subst hm
      have hdlen : d.length ≤ P := by simpa using hl2
      have hmin : min d.length P = d.length := by omega
      have hchunk : d.take (min d.length P) = (d.drop (0 * P)).take P := by
        rw [hmin, Nat.zero_mul, List.drop_zero, List.take_length,
          List.take_of_length_le hdlen]
      refine ⟨be.update_page start
        (chunkPage start P g (d.take (min d.length P)) now), rfl, ?_, ?_, rfl⟩
      · intro k hk
        match k with
        | 0 =>
          rw [Nat.add_zero, update_page_get_same, hchunk]
          rfl
      · intro x hx
        exact update_page_get_other _ _ _ _ (by omega)
    · have hPm : P ≤ m * P := by
        calc P = 1 * P := (Nat.one_mul P).symm
        _ ≤ m * P := Nat.mul_le_mul_right P (by omega)
      have hmP : m * P < d.length := by
        have : (m + 1 - 1) * P = m * P := by rw [Nat.add_sub_cancel]
        rw [this] at hl1
        exact hl1
      have hPd : P ≤ d.length := le_trans hPm (le_of_lt hmP)
      have hmin : min d.length P = P := by omega
      rw [hmin]
      have hfresh' : ∀ k, k < m →
          (be.update_page start (chunkPage start P g (d.take P) now)).get_page
            (start + 1 + k) = some (Page.new (start + 1 + k) P (g + 1 + k)) := by
        intro k hk
        rw [update_page_get_other _ _ _ _ (by omega)]
        have := hfresh (k + 1) (by omega)
        rw [show start + (k + 1) = start + 1 + k by omega,
          show g + (k + 1) = g + 1 + k by omega] at this
        exact this
      have hl1' : (m - 1) * P < (d.drop P).length := by
        rw [List.length_drop, Nat.sub_mul, Nat.one_mul]
        omega
      have hl2' : (d.drop P).length ≤ m * P := by
        rw [List.length_drop]
        have : (m + 1) * P = m * P + P := Nat.succ_mul m P
        omega
      obtain ⟨be', heq, hin, hout, hids⟩ :=
        ih (be.update_page start (chunkPage start P g (d.take P) now))
          (start + 1) (d.drop P) (i + 1) so fg (g + 1) (by omega) (by omega)
          hfresh' hl1' hl2'
      refine ⟨be', heq, ?_, ?_, hids.trans rfl⟩
      · intro k hk
        match k with
        | 0 =>
          rw [Nat.add_zero, hout start (Or.inl (by omega)),
            update_page_get_same]
          rw [show (0 : Nat) * P = 0 from Nat.zero_mul P, List.drop_zero]
          rfl
        | j + 1 =>
          have hj := hin j (by omega)
          rw [show start + 1 + j = start + (j + 1) by omega,
            show g + 1 + j = g + (j + 1) by omega,
            List.drop_drop, show P + j * P = (j + 1) * P from
              by rw [Nat.succ_mul, Nat.add_comm]] at hj
          exact hj
      · intro x hx
        rw [hout x (by omega)]
        exact update_page_get_other _ _ _ _ (by omega)

/-- Full specification of the multi-page write loop started at index 0 on a
range of `n ≥ 2` fresh pages: it succeeds, captures start offset 0 and the
first page's generation, and leaves page `start + k` holding the `k`-th
page-sized slice of the payload. -/
theorem multiWrite_spec (P now : Nat) (hP : 0 < P) (n : Nat) (be : Backend)
    (start : Nat) (d : Bytes) (g : Nat)
    (hfresh : ∀ k, k < n → be.get_page (start + k) =
      some (Page.new (start + k) P (g + k)))
    (hl1 : (n - 1) * P < d.length) (hl2 : d.length ≤ n * P) (hn : 2 ≤ n) :
    ∃ be', multiWrite be (List.range' start n) 0 d none 0 now =
        .ok (be', some 0, g) ∧
      (∀ k, k < n → be'.get_page (start + k) =
        some (chunkPage (start + k) P (g + k) ((d.drop (k * P)).take P) now)) ∧
      (∀ x, (x < start ∨ start + n ≤ x) → be'.get_page x = be.get_page x) ∧
      be'.ids = be.ids := by
  obtain ⟨m, rfl⟩ : ∃ m, n = m + 1 := ⟨n - 1, by omega⟩
  have hfresh0 : be.get_page start = some (Page.new start P g) := by
    have := hfresh 0 (by omega)
    simpa using this
  simp only [List.range'_succ, multiWrite, hfresh0, if_pos rfl,
    try_append_partial_fresh start P g d now hP]
  have hm : 1 ≤ m := by omega
  have hPm : P ≤ m * P := by
    calc P = 1 * P := (Nat.one_mul P).symm
    _ ≤ m * P := Nat.mul_le_mul_right P hm
  have hmP : m * P < d.length := by
    have he : (m + 1 - 1) * P = m * P := by rw [Nat.add_sub_cancel]
    rw [he] at hl1
    exact hl1
  have hPd : P ≤ d.length := le_trans hPm (le_of_lt hmP)
  have hmin : min d.length P = P := by omega
  rw [hmin]
  have hfresh' : ∀ k, k < m →
      (be.update_page start (chunkPage start P g (d.take P) now)).get_page
        (start + 1 + k) = some (Page.new (start + 1 + k) P (g + 1 + k)) := by
    intro k hk
    rw [update_page_get_other _ _ _ _ (by omega)]
    have := hfresh (k + 1) (by omega)
    rw [show start + (k + 1) = start + 1 + k by omega,
      show g + (k + 1) = g + 1 + k by omega] at this
    exact this
  have hl1' : (m - 1) * P < (d.drop P).length := by
    rw [List.length_drop, Nat.sub_mul, Nat.one_mul]
    omega
  have hl2' : (d.drop P).length ≤ m * P := by
    rw [List.length_drop]
    have : (m + 1) * P = m * P + P := Nat.succ_mul m P
    omega
  obtain ⟨be', heq, hin, hout, hids⟩ :=
    multiWrite_tail P now hP m
      (be.update_page start (chunkPage start P g (d.take P) now))
      (start + 1) (d.drop P) 1 (some 0) g (g + 1) (by omega) hm
      hfresh' hl1' hl2'
  refine ⟨be', heq, ?_, ?_, hids.trans rfl⟩
  · intro k hk
    match k with
    | 0 =>
      rw [Nat.add_zero, hout start (Or.inl (by omega)), update_page_get_same]
      rw [show (0 : Nat) * P = 0 from Nat.zero_mul P, List.drop_zero]
      rfl
    | j + 1 =>
      have hj := hin j (by omega)
      rw [show start + 1 + j = start + (j + 1) by omega,
        show g + 1 + j = g + (j + 1) by omega,
        List.drop_drop, show P + j * P = (j + 1) * P from
          by rw [Nat.succ_mul, Nat.add_comm]] at hj
      exact hj
  · intro x hx
    rw [hout x (by omega)]
    exact update_page_get_other _ _ _ _ (by omega)

/-- Arithmetic facts about `n = ceil(L / P)` for `P < L`, `0 < P`:
`2 ≤ n`, `(n − 1)·P < L` and `L ≤ n·P`. -/
theorem ceil_div_facts (L P : Nat) (hP : 0 < P) (hL : P < L) :
    2 ≤ (L + P - 1) / P ∧ ((L + P - 1) / P - 1) * P < L ∧
      L ≤ ((L + P - 1) / P) * P := by
  have hq := Nat.div_add_mod (L + P - 1) P
  have hr : (L + P - 1) % P < P := Nat.mod_lt _ hP
  refine ⟨(Nat.le_div_iff_mul_le hP).mpr (by omega), ?_, ?_⟩
  · rw [Nat.sub_mul, Nat.one_mul, Nat.mul_comm]
    omega
  · rw [Nat.mul_comm]
    omega

/-- Inversion of `append_multi_page` on a well-formed store (pages above the
high-water mark absent): it reserves `n = ceil(len / page_size)` identifiers
starting at `high_water_mark + 1`, bypasses `free_pages`, allocates each
reserved page fresh with consecutive generations starting at the current
generation counter, writes the payload slices, and returns the multi-page
handle with offset 0 and the first page's generation. -/
theorem append_multi_page_spec (s : Store) (b : Bytes) (now : Nat)
    (hP : 0 < s.config.page_size)
    (hfresh : ∀ id, s.high_water_mark < id → s.backend.get_page id = none)
    (hlen : s.config.page_size < b.length) :
    ∃ s', s.append_multi_page b now = .ok
        (BlobHandle.new_multi_page (s.high_water_mark + 1) 0
          (s.high_water_mark + 1 +
            (b.length + s.config.page_size - 1) / s.config.page_size - 1)
          b.length s.generation_counter now, s') ∧
      s'.config = s.config ∧
      s'.current_page = s.current_page ∧
      s'.free_pages = s.free_pages ∧
      s'.high_water_mark = s.high_water_mark +
        (b.length + s.config.page_size - 1) / s.config.page_size ∧
      s'.generation_counter = s.generation_counter +
        (b.length + s.config.page_size - 1) / s.config.page_size ∧
      (∀ k, k < (b.length + s.config.page_size - 1) / s.config.page_size →
        s'.backend.get_page (s.high_water_mark + 1 + k) =
          some (chunkPage (s.high_water_mark + 1 + k) s.config.page_size
            (s.generation_counter + k)
            ((b.drop (k * s.config.page_size)).take s.config.page_size) now)) ∧
      (∀ x, (x < s.high_water_mark + 1 ∨
          s.high_water_mark + 1 +
            (b.length + s.config.page_size - 1) / s.config.page_size ≤ x) →
        s'.backend.get_page x = s.backend.get_page x) := by
  obtain ⟨hn2, hl1, hl2⟩ := ceil_div_facts b.length s.config.page_size hP hlen
  have hfresh₁ : ∀ k,
      k < (b.length + s.config.page_size - 1) / s.config.page_size →
      ({ s with high_water_mark := s.high_water_mark +
          (b.length + s.config.page_size - 1) / s.config.page_size } :
        Store).backend.get_page (s.high_water_mark + 1 + k) = none := by
    intro k _
    exact hfresh (s.high_water_mark + 1 + k) (by omega)
  obtain ⟨hain, haout, hacfg, hacur, hahwm, hafree, hagen⟩ :=
    alloc_range_spec s.config.page_size
      ((b.length + s.config.page_size - 1) / s.config.page_size)
      ({ s with high_water_mark := s.high_water_mark +
          (b.length + s.config.page_size - 1) / s.config.page_size } : Store)
      (s.high_water_mark + 1) s.generation_counter rfl rfl hfresh₁
  obtain ⟨be', heq, hin, hout, hids⟩ :=
    multiWrite_spec s.config.page_size now hP
      ((b.length + s.config.page_size - 1) / s.config.page_size)
      (({ s with high_water_mark := s.high_water_mark +
          (b.length + s.config.page_size - 1) / s.config.page_size } :
        Store).alloc_range (s.high_water_mark + 1)
          ((b.length + s.config.page_size - 1) / s.config.page_size)).backend
      (s.high_water_mark + 1) b s.generation_counter hain hl1 hl2 hn2
  refine ⟨{ (({ s with high_water_mark := s.high_water_mark +
      (b.length + s.config.page_size - 1) / s.config.page_size } :
        Store).alloc_range (s.high_water_mark + 1)
        ((b.length + s.config.page_size - 1) / s.config.page_size)) with
      backend := be'
      profiler := (((({ s with high_water_mark := s.high_water_mark +
        (b.length + s.config.page_size - 1) / s.config.page_size } :
          Store).alloc_range (s.high_water_mark + 1)
          ((b.length + s.config.page_size - 1) /
            s.config.page_size)).profiler.record_append
              b.length).record_multi_page_span) },
    ?_, hacfg, hacur, hafree, hahwm, hagen, ?_, ?_⟩
  · simp only [Store.append_multi_page, heq]
    rfl
  · intro k hk
    exact hin k hk
  · intro x hx
    exact (hout x hx).trans (haout x hx)

theorem demoStore0_fresh : ∀ id, demoStore0.high_water_mark < id →
    demoStore0.backend.get_page id = none := by
  intro id hid
  have hid' : 0 < id := hid
  show (if id = 0 then some (Page.new 0 demoConfig.page_size 0) else none) =
    none
  rw [if_neg (by omega)]

/-- C5: for every payload longer than a page, `append` takes the multi-page
path, which reserves `n = ceil(len / page_size)` consecutive identifiers
starting at the pre-add `high_water_mark + 1`, allocates each of them fresh
(they were absent before the call and `free_pages` is not consulted — it is
returned unchanged), and produces a handle with `start_page` equal to the
first reserved identifier, `end_page = start_page + n − 1`,
`total_size = len`, and generation equal to the first page's generation. -/
theorem C5_multi_page_reservation (s : Store) (b : Bytes) (now fuel : Nat)
    (h : BlobHandle) (s' : Store)
    (hP : 0 < s.config.page_size)
    (hfresh : ∀ id, s.high_water_mark < id → s.backend.get_page id = none)
    (hlen : s.config.page_size < b.length)
    (happend : s.append b now fuel = .ok (h, s')) :
    h.page_id = s.high_water_mark + 1 ∧
    h.end_page_id = h.page_id +
      (b.length + s.config.page_size - 1) / s.config.page_size - 1 ∧
    h.total_size = b.length ∧
    h.generation = s.generation_counter ∧
    s'.free_pages = s.free_pages ∧
    s'.high_water_mark = s.high_water_mark +
      (b.length + s.config.page_size - 1) / s.config.page_size ∧
    (∀ k, k < (b.length + s.config.page_size - 1) / s.config.page_size →
      s.backend.get_page (h.page_id + k) = none ∧
      ∃ p, s'.backend.get_page (h.page_id + k) = some p ∧
        p.generation = s.generation_counter + k) ∧
    (∃ p₁, s'.backend.get_page h.page_id = some p₁ ∧
      p₁.generation = h.generation) := by
  have hbne : b.isEmpty = false := by
    cases b with
    | nil => simp at hlen
    | cons x xs => rfl
  obtain ⟨hn2, -, -⟩ := ceil_div_facts b.length s.config.page_size hP hlen
  rw [Store.append, if_neg (by simp [hbne]), if_pos hlen] at happend
  obtain ⟨s₀, heq, hcfg, hcur, hfree, hhwm, hgen, hin, hout⟩ :=
    append_multi_page_spec s b now hP hfresh hlen
  rw [heq] at happend
  obtain ⟨hh, hs'⟩ := Prod.mk.inj (Except.ok.inj happend)
  subst hs'
  subst hh
  refine ⟨rfl, rfl, rfl, rfl, hfree, hhwm, ?_, ?_⟩
  · intro k hk
    refine ⟨hfresh (s.high_water_mark + 1 + k) (by omega),
      chunkPage (s.high_water_mark + 1 + k)
      s.config.page_size (s.generation_counter + k)
      ((b.drop (k * s.config.page_size)).take s.config.page_size) now,
      hin k hk, rfl⟩
  · refine ⟨chunkPage (s.high_water_mark + 1) s.config.page_size
      s.generation_counter (b.take s.config.page_size) now, ?_, rfl⟩
    have h0 := hin 0 (by omega)
    rw [show s.high_water_mark + 1 + 0 = s.high_water_mark + 1 from rfl,
      show (0 : Nat) * s.config.page_size = 0 from
        Nat.zero_mul _, List.drop_zero] at h0
    exact h0

/-- Witness for C5: the five-byte multi-page append of the demo run
reserves pages 1–2 above the high-water mark 0, leaves `free_pages` empty,
and carries the first page's generation 1. -/
theorem C5_multi_page_reservation_witness :
    demoH1.page_id = demoStore0.high_water_mark + 1 ∧
    demoH1.end_page_id = 2 ∧
    demoH1.total_size = demoBlob.length ∧
    demoS1.free_pages = demoStore0.free_pages := by
  have hc := C5_multi_page_reservation demoStore0 demoBlob 0 1 demoH1 demoS1
    (by decide) demoStore0_fresh (by decide) rfl
  exact ⟨hc.1, by rw [hc.2.1, hc.1]; rfl, hc.2.2.1, hc.2.2.2.2.1⟩

/-- Round trip through the single-page fast path: whenever the append retry
loop succeeds, reading the returned handle from the resulting state (within
the TTL window) yields the appended bytes. -/
theorem append_loop_get (b : Bytes) (now now' : Nat) :
    ∀ (fuel : Nat) (s : Store) (h : BlobHandle) (s' : Store),
    s.append_loop b now fuel = .ok (h, s') →
    now' - now ≤ s'.config.default_ttl_ms →
    (s'.get h now').1 = some b := by
  intro fuel
  induction fuel with
  | zero =>
    intro s h s' happend _
    exact absurd happend (by simp [Store.append_loop])
  | succ fuel ih =>
    intro s h s' happend httl
    rw [Store.append_loop] at happend
    cases hget : s.backend.get_page s.current_page with
    | none =>
      simp only [hget] at happend
      exact ih _ _ _ happend httl
    | some page =>
      simp only [hget] at happend
      cases htr : page.try_append b now with
      | error e =>
        cases e with
        | PageFull =>
          simp only [htr] at happend
          exact ih _ _ _ happend httl
        | HandleExpired =>
          simp only [htr] at happend
          exact absurd happend (by simp)
        | InvalidHandle =>
          simp only [htr] at happend
          exact absurd happend (by simp)
        | OutOfMemory =>
          simp only [htr] at happend
          exact absurd happend (by simp)
        | DataTooLarge sz mx =>
          simp only [htr] at happend
          exact absurd happend (by simp)
      | ok val =>
        obtain ⟨⟨o, sz⟩, p'⟩ := val
        simp only [htr] at happend
        obtain ⟨hh, hs'⟩ := Prod.mk.inj (Except.ok.inj happend)
        obtain ⟨hv, hpage', hle⟩ :=
          try_append_ok_inv page b now (o, sz) p' htr
        obtain ⟨ho, hsz⟩ := Prod.mk.inj hv
        subst ho
        subst hsz
        subst hpage'
        subst hs'
        subst hh
        rw [Store.get]
        rw [if_neg (by
          simp only [BlobHandle.new, BlobHandle.is_expired,
            decide_eq_true_eq, not_lt]
          exact httl)]
        rw [if_neg (by
          simp [BlobHandle.new, BlobHandle.is_multi_page])]
        simp only [BlobHandle.new, update_page_get_same]
        rw [if_neg (not_not_intro rfl)]
        have hget2 : ({ page with
            data := writeBytes page.data page.used b
            used := page.used + b.length
            entries := page.entries ++ [EntryMetadata.new page.used
              b.length now]
            empty_since := 0 } : Page).get page.used b.length = some b := by
          rw [Page.get]
          simp only
          rw [writeBytes_length page.data b page.used hle, if_pos hle,
            writeBytes_readback page.data b page.used (by omega)]
        simp only [hget2]

theorem chunkPage_get_prefix (id P gen : Nat) (chunk : Bytes) (now t : Nat)
    (ht : t ≤ chunk.length) :
    (chunkPage id P gen chunk now).get 0 t = some (chunk.take t) := by
  rw [chunkPage, Page.get]
  simp only [List.length_append, List.length_replicate, List.drop_zero]
  rw [if_pos (by omega), List.take_append_of_le_length ht]

theorem chunkPage_used_calc (id P gen : Nat) (chunk : Bytes) (now : Nat)
    (hc : chunk.length ≤ P) :
    P - (chunkPage id P gen chunk now).available_space = chunk.length := by
  rw [chunkPage, Page.available_space]
  simp only [List.length_append, List.length_replicate]
  omega

/-- Reading the tail of a multi-page range whose pages hold the slices of
`b`: starting from the `j`-th page (`1 ≤ j`) with the first `j·P` bytes
already accumulated, the loop reconstructs all of `b`. -/
theorem getMultiLoop_written (P now : Nat) (hP : 0 < P) (be : Backend)
    (b : Bytes) (start n : Nat) (gens : Nat → Nat) (h : BlobHandle)
    (hpid : h.page_id = start) (hend : h.end_page_id = start + n - 1)
    (htot : h.total_size = b.length)
    (hpages : ∀ k, k < n → be.get_page (start + k) =
      some (chunkPage (start + k) P (gens k) ((b.drop (k * P)).take P) now))
    (hl1 : (n - 1) * P < b.length) (hl2 : b.length ≤ n * P) (hn : 2 ≤ n) :
    ∀ (m : Nat), ∀ (j : Nat), j + m = n → 1 ≤ j →
    getMultiLoop be h P (List.range' (start + j) m) (b.take (j * P)) =
      some b := by
  intro m
  induction m with
  | zero =>
    intro j hjm hj
    have hjn : j = n := by omega
    subst hjn
    show some (b.take (j * P)) = some b
    rw [List.take_of_length_le hl2]
  | succ m' ihm =>
    intro j hjm hj
    have hjn : j < n := by omega
    have hwrite := hpages j hjn
    simp only [List.range'_succ, getMultiLoop, hwrite]
    rw [if_neg (show ¬ start + j = h.page_id by rw [hpid]; omega)]
    have hjP : j * P ≤ (n - 1) * P :=
      Nat.mul_le_mul_right P (by omega)
    have hchunk_len : ((b.drop (j * P)).take P).length =
        min P (b.length - j * P) := by
      rw [List.length_take, List.length_drop]
    by_cases hlast : m' = 0
    · subst hlast
      rw [if_pos (show start + j = h.end_page_id by rw [hend]; omega)]
      have hj1 : j = n - 1 := by omega
      have hjPe : j * P = (n - 1) * P := by rw [hj1]
      have hacc_len : (b.take (j * P)).length = j * P := by
        rw [List.length_take]
        omega
      have hcl : ((b.drop (j * P)).take P).length = b.length - j * P := by
        rw [hchunk_len]
        have hnP : n * P = (n - 1) * P + P := by
          rw [← Nat.succ_mul]
          congr 1
          omega
        omega
      have hrem : h.total_size - (b.take (j * P)).length =
          b.length - j * P := by
        rw [htot, hacc_len]
      rw [hrem]
      have hgp := chunkPage_get_prefix (start + j) P (gens j)
        ((b.drop (j * P)).take P) now (b.length - j * P) (by rw [hcl])
      simp only [hgp]
      have htake : ((b.drop (j * P)).take P).take (b.length - j * P) =
          (b.drop (j * P)).take P := by
        rw [← hcl, List.take_length]
      rw [htake]
      show some (b.take (j * P) ++ (b.drop (j * P)).take P) = some b
      have hdl : (b.drop (j * P)).take P = b.drop (j * P) :=
        List.take_of_length_le (by rw [List.length_drop]; omega)
      rw [hdl, List.take_append_drop]
    · rw [if_neg (show ¬ start + j = h.end_page_id by rw [hend]; omega)]
      have hmid : ((b.drop (j * P)).take P).length = P := by
        rw [hchunk_len]
        have hj2 : j + 1 ≤ n - 1 := by omega
        have : (j + 1) * P ≤ (n - 1) * P :=
          Nat.mul_le_mul_right P hj2
        have hsm : (j + 1) * P = j * P + P := Nat.succ_mul j P
        omega
      rw [chunkPage_used_calc (start + j) P (gens j)
        ((b.drop (j * P)).take P) now (by omega)]
      have hgp := chunkPage_get_prefix (start + j) P (gens j)
        ((b.drop (j * P)).take P) now ((b.drop (j * P)).take P).length
        (le_refl _)
      rw [List.take_length] at hgp
      simp only [hgp]
      have hacc : b.take (j * P) ++ (b.drop (j * P)).take P =
          b.take ((j + 1) * P) := by
        rw [Nat.succ_mul, List.take_add]
      rw [hacc, show start + j + 1 = start + (j + 1) by omega]
      exact ihm (j + 1) (by omega) (by omega)

theorem alloc_next_config (s : Store) :
    (s.allocate_next_available_page).2.config = s.config := by
  rw [Store.allocate_next_available_page]
  split <;> rfl

theorem append_loop_config (b : Bytes) (now : Nat) :
    ∀ (fuel : Nat) (s : Store) (h : BlobHandle) (s' : Store),
    s.append_loop b now fuel = .ok (h, s') → s'.config = s.config := by
  intro fuel
  induction fuel with
  | zero =>
    intro s h s' happend
    exact absurd happend (by simp [Store.append_loop])
  | succ fuel ih =>
    intro s h s' happend
    rw [Store.append_loop] at happend
    cases hget : s.backend.get_page s.current_page with
    | none =>
      simp only [hget] at happend
      exact (ih _ _ _ happend).trans (alloc_next_config s)
    | some page =>
      simp only [hget] at happend
      cases htr : page.try_append b now with
      | error e =>
        cases e with
        | PageFull =>
          simp only [htr] at happend
          exact (ih _ _ _ happend).trans (alloc_next_config s)
        | HandleExpired =>
          simp only [htr] at happend
          exact absurd happend (by simp)
        | InvalidHandle =>
          simp only [htr] at happend
          exact absurd happend (by simp)
        | OutOfMemory =>
          simp only [htr] at happend
          exact absurd happend (by simp)
        | DataTooLarge sz mx =>
          simp only [htr] at happend
          exact absurd happend (by simp)
      | ok val =>
        simp only [htr] at happend
        obtain ⟨-, hs'⟩ := Prod.mk.inj (Except.ok.inj happend)
        rw [← hs']

theorem nmp_page_id (a o e t g n : Nat) :
    (BlobHandle.new_multi_page a o e t g n).page_id = a := rfl

theorem nmp_offset (a o e t g n : Nat) :
    (BlobHandle.new_multi_page a o e t g n).offset = o := rfl

theorem nmp_timestamp (a o e t g n : Nat) :
    (BlobHandle.new_multi_page a o e t g n).timestamp = n := rfl

theorem nmp_generation (a o e t g n : Nat) :
    (BlobHandle.new_multi_page a o e t g n).generation = g := rfl

theorem nmp_end_page_id (a o e t g n : Nat) :
    (BlobHandle.new_multi_page a o e t g n).end_page_id = e := rfl

theorem nmp_total_size (a o e t g n : Nat) :
    (BlobHandle.new_multi_page a o e t g n).total_size = t := rfl

/-- C1: round trip — for every non-empty payload `b`, if `append(b)`
succeeds with handle `h` and the read happens within the TTL window
(`now' − h.timestamp ≤ default_ttl_ms`, with nothing acknowledged or
decayed in between: the read is performed on the post-append state), then
`get(&h)` returns exactly the appended bytes, on both the single-page path
(`len ≤ page_size`) and the multi-page path (`len > page_size`). -/
theorem C1_round_trip (s : Store) (b : Bytes) (now now' fuel : Nat)
    (h : BlobHandle) (s' : Store)
    (hP : 0 < s.config.page_size)
    (hfresh : ∀ id, s.high_water_mark < id → s.backend.get_page id = none)
    (happend : s.append b now fuel = .ok (h, s'))
    (httl : now' - now ≤ s.config.default_ttl_ms) :
    (s'.get h now').1 = some b := by
  rw [Store.append] at happend
  by_cases hb : b.isEmpty
  · rw [if_pos hb] at happend
    exact absurd happend (by simp)
  · rw [if_neg hb] at happend
    by_cases hlen : b.length > s.config.page_size
    · rw [if_pos hlen] at happend
      obtain ⟨hn2, hl1, hl2⟩ :=
        ceil_div_facts b.length s.config.page_size hP hlen
      obtain ⟨s₀, heq, hcfg, hcur, hfree, hhwm, hgen, hin, hout⟩ :=
        append_multi_page_spec s b now hP hfresh hlen
      rw [heq] at happend
      obtain ⟨hh, hs'⟩ := Prod.mk.inj (Except.ok.inj happend)
      subst hs'
      subst hh
      rw [Store.get]
      rw [if_neg (by
        simp only [BlobHandle.is_expired, nmp_timestamp,
          decide_eq_true_eq, not_lt, hcfg]
        exact httl)]
      rw [if_pos (by
        simp only [BlobHandle.is_multi_page, nmp_page_id, nmp_end_page_id,
          ne_eq, decide_eq_true_eq]
        omega)]
      rw [Store.get_multi_page, hcfg]
      have hrg : (BlobHandle.new_multi_page (s.high_water_mark + 1) 0
          (s.high_water_mark + 1 +
            (b.length + s.config.page_size - 1) / s.config.page_size - 1)
          b.length s.generation_counter now).end_page_id + 1 -
          (BlobHandle.new_multi_page (s.high_water_mark + 1) 0
          (s.high_water_mark + 1 +
            (b.length + s.config.page_size - 1) / s.config.page_size - 1)
          b.length s.generation_counter now).page_id =
          (b.length + s.config.page_size - 1) / s.config.page_size := by
        simp only [nmp_page_id, nmp_end_page_id]
        omega
      rw [hrg]
      have hml := getMultiLoop_written s.config.page_size now hP s₀.backend
        b (s.high_water_mark + 1)
        ((b.length + s.config.page_size - 1) / s.config.page_size)
        (fun k => s.generation_counter + k)
        (BlobHandle.new_multi_page (s.high_water_mark + 1) 0
          (s.high_water_mark + 1 +
            (b.length + s.config.page_size - 1) / s.config.page_size - 1)
          b.length s.generation_counter now)
        rfl (nmp_end_page_id _ _ _ _ _ _) rfl hin hl1 hl2 hn2
      -- first iteration of the read loop, then the tail lemma
      have h0 := hin 0 (by omega)
      rw [show s.high_water_mark + 1 + 0 = s.high_water_mark + 1 from rfl,
        show (0 : Nat) * s.config.page_size = 0 from Nat.zero_mul _,
        List.drop_zero] at h0
      have hc0len : (b.take s.config.page_size).length =
          s.config.page_size := by
        rw [List.length_take]
        omega
      have hfirst : getMultiLoop s₀.backend
          (BlobHandle.new_multi_page (s.high_water_mark + 1) 0
            (s.high_water_mark + 1 +
              (b.length + s.config.page_size - 1) / s.config.page_size - 1)
            b.length s.generation_counter now)
          s.config.page_size
          (List.range' (s.high_water_mark + 1)
            ((b.length + s.config.page_size - 1) / s.config.page_size)) [] =
          some b := by
        have hcons : List.range' (s.high_water_mark + 1)
            ((b.length + s.config.page_size - 1) / s.config.page_size) =
            (s.high_water_mark + 1) :: List.range' (s.high_water_mark + 1 + 1)
              ((b.length + s.config.page_size - 1) / s.config.page_size - 1) := by
          obtain ⟨m, hm⟩ : ∃ m,
              (b.length + s.config.page_size - 1) / s.config.page_size =
                m + 1 :=
            ⟨(b.length + s.config.page_size - 1) / s.config.page_size - 1,
              by omega⟩
          rw [hm, List.range'_succ, Nat.add_sub_cancel]
        rw [hcons]
        simp only [getMultiLoop, h0]
        rw [if_pos (show s.high_water_mark + 1 =
          (BlobHandle.new_multi_page (s.high_water_mark + 1) 0
            (s.high_water_mark + 1 +
              (b.length + s.config.page_size - 1) / s.config.page_size - 1)
            b.length s.generation_counter now).page_id from rfl)]
        rw [chunkPage_used_calc _ _ _ _ _ (by omega)]
        rw [show (BlobHandle.new_multi_page (s.high_water_mark + 1) 0
          (s.high_water_mark + 1 +
            (b.length + s.config.page_size - 1) / s.config.page_size - 1)
          b.length s.generation_counter now).offset = 0 from rfl]
        rw [Nat.sub_zero]
        have hgp := chunkPage_get_prefix (s.high_water_mark + 1)
          s.config.page_size (s.generation_counter + 0)
          (b.take s.config.page_size)
          now (b.take s.config.page_size).length (le_refl _)
        rw [List.take_length] at hgp
        simp only [hgp]
        have htail := hml
          ((b.length + s.config.page_size - 1) / s.config.page_size - 1) 1
          (by omega) (le_refl 1)
        rw [Nat.one_mul] at htail
        rw [show [] ++ b.take s.config.page_size =
          b.take s.config.page_size from List.nil_append _]
        exact htail
      rw [nmp_page_id]
      simp only [hfirst]
      split <;> rfl
    · rw [if_neg hlen] at happend
      have hcfg := append_loop_config b now fuel s h s' happend
      exact append_loop_get b now now' fuel s h s' happend
        (by rw [hcfg]; exact httl)

/-- Witness for C1: the demo run's five-byte multi-page append round-trips
through `get` immediately after the append. -/
theorem C1_round_trip_witness :
    (demoS1.get demoH1 0).1 = some demoBlob :=
  C1_round_trip demoStore0 demoBlob 0 0 1 demoH1 demoS1 (by decide)
    demoStore0_fresh rfl (by decide)

end SFB
